import Mathlib

/-!
Verification of the jLogger asynchronous logging pipeline (src/loger.go).

The Go code is shallowly embedded as pure Lean functions over an explicit
`LoggerState` record.  Concurrency is modelled by an explicit trace of
actions (`Action`): emit calls from producer goroutines, single dispatch
steps of the consumer goroutine `processLogMessages`, and ticks of the
periodic-flush goroutine `flushBufferPeriodically`.  Sinks (the lumberjack
rotating files wrapped in `log.Logger`s) are modelled as the list of lines
appended to them; the per-buffer mutexes are modelled by making each
lock-protected critical section a single atomic state transition.
A Go panic (send on a closed channel) is modelled by returning `none`.
-/

namespace JLogger

/-- The three severity levels a `logMessage` can carry.  In the Go source the
`level` field is a string, but the only values ever placed in the channel are
"INFO", "DEBUG" and "ERROR". -/
inductive Level where
  | info
  | debug
  | error
deriving DecidableEq, Repr

/-- A wall-clock instant, the result of `time.Now()` at the emit call site. -/
structure DateTime where
  year : Nat
  month : Nat
  day : Nat
  hour : Nat
  minute : Nat
  second : Nat
  millis : Nat
deriving DecidableEq, Repr

/-- `logMessage` from the source: level, the timestamp captured at the call
site, and the variadic payload.  Each payload element is modelled by its
`%v` rendering, so `msg` is a list of strings. -/
structure LogMsg where
  level : Level
  timestamp : DateTime
  msg : List String
deriving DecidableEq, Repr

/-- Zero-pad a natural number to two digits (Go layout `01`, `02`, ...). -/
def pad2 (n : Nat) : String :=
  if n < 10 then "0" ++ toString n else toString n

/-- Zero-pad a natural number to three digits (Go layout `.000`). -/
def pad3 (n : Nat) : String :=
  if n < 10 then "00" ++ toString n
  else if n < 100 then "0" ++ toString n
  else toString n

/-- Zero-pad a natural number to four digits (Go layout `2006`). -/
def pad4 (n : Nat) : String :=
  if n < 10 then "000" ++ toString n
  else if n < 100 then "00" ++ toString n
  else if n < 1000 then "0" ++ toString n
  else toString n

/-- `timeFormat = "2006-01-02 15:04:05.000"`: the rendering of
`msg.timestamp.Format(timeFormat)`. -/
def formatTimestamp (t : DateTime) : String :=
  pad4 t.year ++ "-" ++ pad2 t.month ++ "-" ++ pad2 t.day ++ " " ++
    pad2 t.hour ++ ":" ++ pad2 t.minute ++ ":" ++ pad2 t.second ++ "." ++ pad3 t.millis

/-- Go `unicode.IsSpace` restricted to the ASCII white-space characters
(sufficient for the payloads this development evaluates). -/
def isSpaceChar (c : Char) : Bool :=
  c = ' ' || c = '\t' || c = '\n' || c = '\x0d' || c = '\x0b' || c = '\x0c'

/-- `strings.TrimSpace`: drop white space from both ends of a string. -/
def trimSpace (s : String) : String :=
  String.mk (((s.data.dropWhile isSpaceChar).reverse.dropWhile isSpaceChar).reverse)

/-- `fmt.Sprintln(v...)`: operands joined by single spaces, newline appended. -/
def sprintln (v : List String) : String :=
  String.intercalate " " v ++ "\n"

/-- `%v` rendering of a Go slice, as produced by passing the whole `[]interface\x7b\x7d`
as one operand to `Println` on the fallback path: `[e1 e2 ...]`. -/
def fmtSlice (v : List String) : String :=
  "[" ++ String.intercalate " " v ++ "]"

/-- `(*log.Logger).Println(args...)` for a logger built with flag `0` and the
given prefix: the prefix, then the operands joined by single spaces.  The
trailing newline is left implicit: sinks are modelled as lists of lines. -/
def logPrintln (pre : String) (args : List String) : String :=
  pre ++ String.intercalate " " args

/-- The prefix installed on each level's `log.Logger` in `NewLogger`. -/
def levelTag : Level → String
  | .info => "INFO: "
  | .debug => "DEBUG: "
  | .error => "ERROR: "

/-- The line written for one buffered message by `flushBuffer`:
`logger.Println(msg.timestamp.Format(timeFormat), strings.TrimSpace(fmt.Sprintln(msg.msg...)))`. -/
def renderLine (lvl : Level) (m : LogMsg) : String :=
  logPrintln (levelTag lvl) [formatTimestamp m.timestamp, trimSpace (sprintln m.msg)]

/-- The line written on the channel-full fallback path of `Info`
(note the colon at the end of the notice, unlike `Debug` and `Error`). -/
def infoFallbackLine (v : List String) : String :=
  logPrintln (levelTag .info) ["日志通道已满，进入主线程写入日志:", fmtSlice v]

/-- The line written on the channel-full fallback path of `Debug`. -/
def debugFallbackLine (v : List String) : String :=
  logPrintln (levelTag .debug) ["日志通道已满，进入主线程写入日志", fmtSlice v]

/-- The line written on the channel-full fallback path of `Error`. -/
def errorFallbackLine (v : List String) : String :=
  logPrintln (levelTag .error) ["日志通道已满，进入主线程写入日志", fmtSlice v]

/-- Capacity of the buffered intake channel: `make(chan logMessage, 5000)`. -/
def chanCap : Nat := 5000

/-- The `Logger` struct.  `logChannel` holds the queued, not yet dispatched
messages; `sinkInfo`/`sinkDebug`/`sinkError` hold the lines appended so far to
the three rotating sinks; `channelClosed` records `close(l.logChannel)` having
run; `onceDone` is the state of `l.once`; `tickerActive` models the
`flushBufferPeriodically` goroutine still being alive (its ticker running). -/
structure LoggerState where
  logChannel : List LogMsg
  bufferInfo : List LogMsg
  bufferDebug : List LogMsg
  bufferError : List LogMsg
  bufferSize : Nat
  flushInterval : Nat
  log_level : String
  channelClosed : Bool
  onceDone : Bool
  tickerActive : Bool
  sinkInfo : List String
  sinkDebug : List String
  sinkError : List String
deriving DecidableEq, Repr

/-- `flushBuffer`: under the buffer's mutex copy the contents and reset the
buffer, release the mutex, then write each copied message to the sink.
Returns the new buffer contents and the new sink contents. -/
def flushBuffer (buffer : List LogMsg) (sink : List String) (lvl : Level) :
    List LogMsg × List String :=
  let tmp := buffer
  let cleared : List LogMsg := []
  (cleared, tmp.foldl (fun sk m => sk ++ [renderLine lvl m]) sink)

/-- `flushInfoBuffer`. -/
def flushInfoBuffer (l : LoggerState) : LoggerState :=
  { l with
    bufferInfo := (flushBuffer l.bufferInfo l.sinkInfo .info).1
    sinkInfo := (flushBuffer l.bufferInfo l.sinkInfo .info).2 }

/-- `flushDebugBuffer`. -/
def flushDebugBuffer (l : LoggerState) : LoggerState :=
  { l with
    bufferDebug := (flushBuffer l.bufferDebug l.sinkDebug .debug).1
    sinkDebug := (flushBuffer l.bufferDebug l.sinkDebug .debug).2 }

/-- `flushErrorBuffer`. -/
def flushErrorBuffer (l : LoggerState) : LoggerState :=
  { l with
    bufferError := (flushBuffer l.bufferError l.sinkError .error).1
    sinkError := (flushBuffer l.bufferError l.sinkError .error).2 }

/-- The flush sequence performed both by one ticker iteration and by `Close`:
`flushInfoBuffer`, `flushDebugBuffer`, `flushErrorBuffer` in that order. -/
def flushAllBuffers (l : LoggerState) : LoggerState :=
  flushErrorBuffer (flushDebugBuffer (flushInfoBuffer l))

/-- One iteration of `flushBufferPeriodically`: if the goroutine is still
alive when its ticker fires, it flushes all three buffers.  Nothing in the
source ever stops this goroutine: the loop `for range ticker.C` can only end
if `ticker.C` were closed, which `time.Ticker` never does, and `Close` sends
it no signal, so `tickerActive` is never set to `false` by any operation. -/
def tick (l : LoggerState) : LoggerState :=
  if l.tickerActive then flushAllBuffers l else l

/-- The body of the dispatcher loop `processLogMessages` for one received
message: append to the matching buffer and read the flush condition inside
the critical section, then flush outside the lock if the threshold was hit. -/
def processLogMessage (l : LoggerState) (m : LogMsg) : LoggerState :=
  match m.level with
  | .info =>
    let l1 := { l with bufferInfo := l.bufferInfo ++ [m] }
    let needFlushInfo := l1.bufferInfo.length ≥ l1.bufferSize
    if needFlushInfo then flushInfoBuffer l1 else l1
  | .debug =>
    let l1 := { l with bufferDebug := l.bufferDebug ++ [m] }
    let needFlushDebug := l1.bufferDebug.length ≥ l1.bufferSize
    if needFlushDebug then flushDebugBuffer l1 else l1
  | .error =>
    let l1 := { l with bufferError := l.bufferError ++ [m] }
    let needFlushError := l1.bufferError.length ≥ l1.bufferSize
    if needFlushError then flushErrorBuffer l1 else l1

/-- The dispatcher draining the whole channel (`for msg := range l.logChannel`
running until the closed channel is empty): every queued message is processed
in order and the channel ends empty. -/
def processLogMessages (l : LoggerState) : LoggerState :=
  l.logChannel.foldl processLogMessage { l with logChannel := [] }

/-- The state assembled by the composite literal in `NewLogger`: empty
channel and buffers, goroutines started, nothing closed yet. -/
def mkLogger (bufferSize : Nat) (flushInterval : Nat) (log_level : String) : LoggerState :=
  { logChannel := []
    bufferInfo := []
    bufferDebug := []
    bufferError := []
    bufferSize := bufferSize
    flushInterval := flushInterval
    log_level := log_level
    channelClosed := false
    onceDone := false
    tickerActive := true
    sinkInfo := []
    sinkDebug := []
    sinkError := [] }

/-- Possible outcomes of `NewLogger`: `log.Fatalf` (process exit, no value
returned), an error return, or a live logger. -/
inductive NewLoggerResult where
  | fatalExit
  | err (msg : String)
  | ok (l : LoggerState)
deriving DecidableEq, Repr

/-- `NewLogger`.  `os.MkdirAll` succeeding is abstracted as `dirAccessible`;
on failure the source calls `log.Fatalf`, which terminates the process.
`bufferSize` is a Go `int`, hence `Int` here. -/
def NewLogger (dirAccessible : Bool) (bufferSize : Int) (flushInterval : Nat)
    (log_level : String) : NewLoggerResult :=
  if !dirAccessible then .fatalExit
  else if bufferSize ≤ 0 then .err "bufferSize必须大于0"
  else .ok (mkLogger bufferSize.toNat flushInterval log_level)

/-- The non-blocking send `select \x7b case l.logChannel <- m: ... default: fallback \x7d`.
A send on a closed channel is always ready in a `select` and panics (`none`);
the `default` branch runs only when the channel is full. -/
def trySend (l : LoggerState) (m : LogMsg) (fallback : LoggerState) : Option LoggerState :=
  if l.channelClosed then none
  else if l.logChannel.length < chanCap then
    some { l with logChannel := l.logChannel ++ [m] }
  else some fallback

/-- `Info`: gated on the configured level, captures `eventTime` before the
send, falls back to a direct `InfoLogger.Println` when the channel is full. -/
def Info (l : LoggerState) (v : List String) (eventTime : DateTime) : Option LoggerState :=
  if l.log_level = "INFO" ∨ l.log_level = "DEBUG" then
    trySend l ⟨.info, eventTime, v⟩ { l with sinkInfo := l.sinkInfo ++ [infoFallbackLine v] }
  else some l

/-- `Debug`: admitted only when the configured level is DEBUG. -/
def Debug (l : LoggerState) (v : List String) (eventTime : DateTime) : Option LoggerState :=
  if l.log_level = "DEBUG" then
    trySend l ⟨.debug, eventTime, v⟩ { l with sinkDebug := l.sinkDebug ++ [debugFallbackLine v] }
  else some l

/-- `Error`: never gated. -/
def Error (l : LoggerState) (v : List String) (eventTime : DateTime) : Option LoggerState :=
  trySend l ⟨.error, eventTime, v⟩ { l with sinkError := l.sinkError ++ [errorFallbackLine v] }

/-- `Close`: under `l.once`, close the channel, wait for the dispatcher to
drain it, then flush all three buffers.  A second call finds `once` spent and
returns immediately. -/
def Close (l : LoggerState) : LoggerState :=
  if l.onceDone then l
  else
    flushAllBuffers (processLogMessages
      { l with onceDone := true, channelClosed := true })

/-- One observable action of the concurrent system: an emit call by some
producer, the dispatcher consuming one channel message, or a ticker firing. -/
inductive Action where
  | info (v : List String) (ts : DateTime)
  | debug (v : List String) (ts : DateTime)
  | error (v : List String) (ts : DateTime)
  | dispatch
  | tick
deriving DecidableEq, Repr

/-- Small-step interpretation of one action (`none` = a goroutine panicked). -/
def step (l : LoggerState) (a : Action) : Option LoggerState :=
  match a with
  | .info v ts => Info l v ts
  | .debug v ts => Debug l v ts
  | .error v ts => Error l v ts
  | .dispatch =>
    some (match l.logChannel with
      | [] => l
      | m :: rest => processLogMessage { l with logChannel := rest } m)
  | .tick => some (tick l)

/-- Run a trace of actions. -/
def run (l : LoggerState) : List Action → Option LoggerState
  | [] => some l
  | a :: rest =>
    match step l a with
    | none => none
    | some l1 => run l1 rest

/-- Non-overload condition: along the whole trace the intake channel is never
full (and no step panics). -/
def neverFull (l : LoggerState) : List Action → Bool
  | [] => true
  | a :: rest =>
    decide (l.logChannel.length < chanCap) &&
      match step l a with
      | none => false
      | some l1 => neverFull l1 rest

/-- The message admitted into the pipeline by an action, if any, per the
source's gating: Info when the level is INFO or DEBUG, Debug when DEBUG,
Error always, dispatch/tick never. -/
def emitOf (ll : String) (a : Action) : Option LogMsg :=
  match a with
  | .info v ts => if ll = "INFO" ∨ ll = "DEBUG" then some ⟨.info, ts, v⟩ else none
  | .debug v ts => if ll = "DEBUG" then some ⟨.debug, ts, v⟩ else none
  | .error v ts => some ⟨.error, ts, v⟩
  | .dispatch => none
  | .tick => none

/-- Specification-side quantity for the exactly-once property: the admitted
messages of one level carried by a trace, in emission order. -/
def emittedAdmitted (ll : String) (lvl : Level) : List Action → List LogMsg
  | [] => []
  | a :: rest =>
    (match emitOf ll a with
     | some m => if m.level = lvl then [m] else []
     | none => []) ++ emittedAdmitted ll lvl rest

/-- The sub-sequence of a message list belonging to one level. -/
def chanFilter (lvl : Level) : List LogMsg → List LogMsg
  | [] => []
  | m :: rest => (if m.level = lvl then [m] else []) ++ chanFilter lvl rest

/-- The buffer of a given level. -/
def bufOf (l : LoggerState) : Level → List LogMsg
  | .info => l.bufferInfo
  | .debug => l.bufferDebug
  | .error => l.bufferError

/-- The sink of a given level. -/
def sinkOf (l : LoggerState) : Level → List String
  | .info => l.sinkInfo
  | .debug => l.sinkDebug
  | .error => l.sinkError

/-! ### Basic lemmas about flushing -/

theorem foldl_render (lvl : Level) (xs : List LogMsg) (sink : List String) :
    xs.foldl (fun sk m => sk ++ [renderLine lvl m]) sink = sink ++ xs.map (renderLine lvl) := by
  induction xs generalizing sink with
  | nil => simp
  | cons x xs ih => simp [List.foldl_cons, ih, List.append_assoc]

theorem flushBuffer_spec (buffer : List LogMsg) (sink : List String) (lvl : Level) :
    flushBuffer buffer sink lvl = ([], sink ++ buffer.map (renderLine lvl)) := by
  simp [flushBuffer, foldl_render]

@[simp]
theorem flushInfoBuffer_eq (l : LoggerState) :
    flushInfoBuffer l =
      { l with bufferInfo := [], sinkInfo := l.sinkInfo ++ l.bufferInfo.map (renderLine .info) } := by
  simp [flushInfoBuffer, flushBuffer_spec]

@[simp]
theorem flushDebugBuffer_eq (l : LoggerState) :
    flushDebugBuffer l =
      { l with bufferDebug := [], sinkDebug := l.sinkDebug ++ l.bufferDebug.map (renderLine .debug) } := by
  simp [flushDebugBuffer, flushBuffer_spec]

@[simp]
theorem flushErrorBuffer_eq (l : LoggerState) :
    flushErrorBuffer l =
      { l with bufferError := [], sinkError := l.sinkError ++ l.bufferError.map (renderLine .error) } := by
  simp [flushErrorBuffer, flushBuffer_spec]

@[simp]
theorem chanFilter_nil (lvl : Level) : chanFilter lvl [] = [] := rfl

@[simp]
theorem chanFilter_cons (lvl : Level) (m : LogMsg) (rest : List LogMsg) :
    chanFilter lvl (m :: rest) = (if m.level = lvl then [m] else []) ++ chanFilter lvl rest := rfl

theorem chanFilter_append (lvl : Level) (xs ys : List LogMsg) :
    chanFilter lvl (xs ++ ys) = chanFilter lvl xs ++ chanFilter lvl ys := by
  induction xs with
  | nil => simp
  | cons x xs ih => simp [ih, List.append_assoc]

/-! ### Field preservation by the dispatcher body -/

@[simp]
theorem processLogMessage_logChannel (l : LoggerState) (m : LogMsg) :
    (processLogMessage l m).logChannel = l.logChannel := by
  cases hm : m.level <;> simp [processLogMessage, hm] <;> split <;> simp

@[simp]
theorem processLogMessage_channelClosed (l : LoggerState) (m : LogMsg) :
    (processLogMessage l m).channelClosed = l.channelClosed := by
  cases hm : m.level <;> simp [processLogMessage, hm] <;> split <;> simp

@[simp]
theorem processLogMessage_onceDone (l : LoggerState) (m : LogMsg) :
    (processLogMessage l m).onceDone = l.onceDone := by
  cases hm : m.level <;> simp [processLogMessage, hm] <;> split <;> simp

@[simp]
theorem processLogMessage_log_level (l : LoggerState) (m : LogMsg) :
    (processLogMessage l m).log_level = l.log_level := by
  cases hm : m.level <;> simp [processLogMessage, hm] <;> split <;> simp

@[simp]
theorem processLogMessage_bufferSize (l : LoggerState) (m : LogMsg) :
    (processLogMessage l m).bufferSize = l.bufferSize := by
  cases hm : m.level <;> simp [processLogMessage, hm] <;> split <;> simp

@[simp]
theorem processLogMessage_tickerActive (l : LoggerState) (m : LogMsg) :
    (processLogMessage l m).tickerActive = l.tickerActive := by
  cases hm : m.level <;> simp [processLogMessage, hm] <;> split <;> simp

/-! ### The delivery invariant

`InvD l pending eI eD eE` states that for each level, the admitted messages
of that level emitted so far (`eI`/`eD`/`eE`), rendered, are exactly the lines
already in the sink followed by the renderings of what is still in the buffer
and what is still queued (`pending`), in order. -/

def InvD (l : LoggerState) (pending eI eD eE : List LogMsg) : Prop :=
  eI.map (renderLine .info) =
      l.sinkInfo ++ (l.bufferInfo ++ chanFilter .info pending).map (renderLine .info) ∧
  eD.map (renderLine .debug) =
      l.sinkDebug ++ (l.bufferDebug ++ chanFilter .debug pending).map (renderLine .debug) ∧
  eE.map (renderLine .error) =
      l.sinkError ++ (l.bufferError ++ chanFilter .error pending).map (renderLine .error)

/-- The invariant of a live pipeline: the pending messages are the channel. -/
def Inv (l : LoggerState) (eI eD eE : List LogMsg) : Prop :=
  InvD l l.logChannel eI eD eE

theorem invD_logChannel_irrel (l : LoggerState) (x pending eI eD eE : List LogMsg) :
    InvD { l with logChannel := x } pending eI eD eE ↔ InvD l pending eI eD eE := by
  unfold InvD
  simp

theorem invD_processLogMessage (l : LoggerState) (m : LogMsg) (pending eI eD eE : List LogMsg)
    (h : InvD l (m :: pending) eI eD eE) :
    InvD (processLogMessage l m) pending eI eD eE := by
  obtain ⟨hI, hD, hE⟩ := h
  cases hm : m.level <;>
    · unfold InvD
      simp only [processLogMessage, hm]
      split <;>
        · refine ⟨?_, ?_, ?_⟩ <;> simp [hI, hD, hE, hm, List.append_assoc]

theorem invD_drain (pending : List LogMsg) (l : LoggerState) (eI eD eE : List LogMsg)
    (h : InvD l pending eI eD eE) :
    InvD (pending.foldl processLogMessage l) [] eI eD eE := by
  induction pending generalizing l with
  | nil => simpa using h
  | cons m rest ih => exact ih _ (invD_processLogMessage _ _ _ _ _ _ h)

@[simp]
theorem flushAllBuffers_eq (l : LoggerState) :
    flushAllBuffers l =
      { l with
        bufferInfo := [], bufferDebug := [], bufferError := []
        sinkInfo := l.sinkInfo ++ l.bufferInfo.map (renderLine .info)
        sinkDebug := l.sinkDebug ++ l.bufferDebug.map (renderLine .debug)
        sinkError := l.sinkError ++ l.bufferError.map (renderLine .error) } := by
  simp [flushAllBuffers]

theorem inv_flushAllBuffers (l : LoggerState) (eI eD eE : List LogMsg)
    (h : Inv l eI eD eE) : Inv (flushAllBuffers l) eI eD eE := by
  obtain ⟨hI, hD, hE⟩ := h
  refine ⟨?_, ?_, ?_⟩ <;> simp [hI, hD, hE, List.append_assoc]

theorem inv_tick (l : LoggerState) (eI eD eE : List LogMsg)
    (h : Inv l eI eD eE) : Inv (tick l) eI eD eE := by
  unfold tick
  split
  · exact inv_flushAllBuffers _ _ _ _ h
  · exact h

theorem inv_enqueue_info (l : LoggerState) (m : LogMsg) (eI eD eE : List LogMsg)
    (hm : m.level = .info) (h : Inv l eI eD eE) :
    Inv { l with logChannel := l.logChannel ++ [m] } (eI ++ [m]) eD eE := by
  obtain ⟨hI, hD, hE⟩ := h
  refine ⟨?_, ?_, ?_⟩ <;> simp [hI, hD, hE, hm, chanFilter_append, List.append_assoc]

theorem inv_enqueue_debug (l : LoggerState) (m : LogMsg) (eI eD eE : List LogMsg)
    (hm : m.level = .debug) (h : Inv l eI eD eE) :
    Inv { l with logChannel := l.logChannel ++ [m] } eI (eD ++ [m]) eE := by
  obtain ⟨hI, hD, hE⟩ := h
  refine ⟨?_, ?_, ?_⟩ <;> simp [hI, hD, hE, hm, chanFilter_append, List.append_assoc]

theorem inv_enqueue_error (l : LoggerState) (m : LogMsg) (eI eD eE : List LogMsg)
    (hm : m.level = .error) (h : Inv l eI eD eE) :
    Inv { l with logChannel := l.logChannel ++ [m] } eI eD (eE ++ [m]) := by
  obtain ⟨hI, hD, hE⟩ := h
  refine ⟨?_, ?_, ?_⟩ <;> simp [hI, hD, hE, hm, chanFilter_append, List.append_assoc]

theorem close_sinks (l : LoggerState) (eI eD eE : List LogMsg)
    (h : Inv l eI eD eE) (ho : l.onceDone = false) :
    (Close l).sinkInfo = eI.map (renderLine .info) ∧
    (Close l).sinkDebug = eD.map (renderLine .debug) ∧
    (Close l).sinkError = eE.map (renderLine .error) := by
  have h1 : InvD { l with onceDone := true, channelClosed := true, logChannel := [] }
      l.logChannel eI eD eE := by
    obtain ⟨hI, hD, hE⟩ := h
    exact ⟨by simpa using hI, by simpa using hD, by simpa using hE⟩
  have h2 := invD_drain l.logChannel _ eI eD eE h1
  obtain ⟨hI2, hD2, hE2⟩ := h2
  unfold Close
  rw [ho]
  unfold processLogMessages
  simp only [Bool.false_eq_true, if_false]
  refine ⟨?_, ?_, ?_⟩ <;>
    simp [hI2, hD2, hE2, List.append_assoc]

@[simp]
theorem tick_channelClosed (l : LoggerState) : (tick l).channelClosed = l.channelClosed := by
  unfold tick
  split <;> simp

@[simp]
theorem tick_onceDone (l : LoggerState) : (tick l).onceDone = l.onceDone := by
  unfold tick
  split <;> simp

@[simp]
theorem tick_log_level (l : LoggerState) : (tick l).log_level = l.log_level := by
  unfold tick
  split <;> simp

/-- Main trace lemma: along any non-overloaded trace of a live pipeline no
step panics, the pipeline stays live, and the delivery invariant tracks the
admitted messages of the trace. -/
theorem run_inv (acts : List Action) :
    ∀ (l : LoggerState) (eI eD eE : List LogMsg),
      neverFull l acts = true → l.channelClosed = false → l.onceDone = false →
      Inv l eI eD eE →
      ∃ lf, run l acts = some lf ∧ lf.channelClosed = false ∧ lf.onceDone = false ∧
        lf.log_level = l.log_level ∧
        Inv lf (eI ++ emittedAdmitted l.log_level .info acts)
          (eD ++ emittedAdmitted l.log_level .debug acts)
          (eE ++ emittedAdmitted l.log_level .error acts) := by
  induction acts with
  | nil =>
    intro l eI eD eE _ hc ho hinv
    exact ⟨l, rfl, hc, ho, rfl, by simpa [emittedAdmitted] using hinv⟩
  | cons a rest ih =>
    intro l eI eD eE hnf hc ho hinv
    unfold neverFull at hnf
    rw [Bool.and_eq_true, decide_eq_true_eq] at hnf
    obtain ⟨hlt, hnf⟩ := hnf
    cases hs : step l a with
    | none => rw [hs] at hnf; cases hnf
    | some l1 =>
      rw [hs] at hnf
      cases a with
      | info v ts =>
        by_cases hg : l.log_level = "INFO" ∨ l.log_level = "DEBUG"
        · have hstep : step l (Action.info v ts) =
              some { l with logChannel := l.logChannel ++ [⟨.info, ts, v⟩] } := by
            simp only [step, Info, trySend]
            rw [if_pos hg, if_neg (by simp [hc]), if_pos hlt]
          obtain rfl := Option.some_inj.mp (hstep.symm.trans hs)
          obtain ⟨lf, hr, hcf, hof, hll, hi⟩ :=
            ih _ _ _ _ hnf hc ho (inv_enqueue_info l _ _ _ _ rfl hinv)
          refine ⟨lf, ?_, hcf, hof, by simpa using hll, ?_⟩
          · simp only [run, hstep]
            exact hr
          · simpa [emittedAdmitted, emitOf, hg, List.append_assoc] using hi
        · have hstep : step l (Action.info v ts) = some l := by
            simp only [step, Info]
            rw [if_neg hg]
          obtain rfl := Option.some_inj.mp (hstep.symm.trans hs)
          obtain ⟨lf, hr, hcf, hof, hll, hi⟩ := ih _ _ _ _ hnf hc ho hinv
          refine ⟨lf, ?_, hcf, hof, hll, ?_⟩
          · simp only [run, hstep]
            exact hr
          · simpa [emittedAdmitted, emitOf, hg] using hi
      | debug v ts =>
        by_cases hg : l.log_level = "DEBUG"
        · have hstep : step l (Action.debug v ts) =
              some { l with logChannel := l.logChannel ++ [⟨.debug, ts, v⟩] } := by
            simp only [step, Debug, trySend]
            rw [if_pos hg, if_neg (by simp [hc]), if_pos hlt]
          obtain rfl := Option.some_inj.mp (hstep.symm.trans hs)
          obtain ⟨lf, hr, hcf, hof, hll, hi⟩ :=
            ih _ _ _ _ hnf hc ho (inv_enqueue_debug l _ _ _ _ rfl hinv)
          refine ⟨lf, ?_, hcf, hof, by simpa using hll, ?_⟩
          · simp only [run, hstep]
            exact hr
          · simpa [emittedAdmitted, emitOf, hg, List.append_assoc] using hi
        · have hstep : step l (Action.debug v ts) = some l := by
            simp only [step, Debug]
            rw [if_neg hg]
          obtain rfl := Option.some_inj.mp (hstep.symm.trans hs)
          obtain ⟨lf, hr, hcf, hof, hll, hi⟩ := ih _ _ _ _ hnf hc ho hinv
          refine ⟨lf, ?_, hcf, hof, hll, ?_⟩
          · simp only [run, hstep]
            exact hr
          · simpa [emittedAdmitted, emitOf, hg] using hi
      | error v ts =>
        have hstep : step l (Action.error v ts) =
            some { l with logChannel := l.logChannel ++ [⟨.error, ts, v⟩] } := by
          simp only [step, Error, trySend]
          rw [if_neg (by simp [hc]), if_pos hlt]
        obtain rfl := Option.some_inj.mp (hstep.symm.trans hs)
        obtain ⟨lf, hr, hcf, hof, hll, hi⟩ :=
          ih _ _ _ _ hnf hc ho (inv_enqueue_error l _ _ _ _ rfl hinv)
        refine ⟨lf, ?_, hcf, hof, by simpa using hll, ?_⟩
        · simp only [run, hstep]
          exact hr
        · simpa [emittedAdmitted, emitOf, List.append_assoc] using hi
      | dispatch =>
        cases hch : l.logChannel with
        | nil =>
          have hstep : step l Action.dispatch = some l := by
            simp only [step, hch]
          obtain rfl := Option.some_inj.mp (hstep.symm.trans hs)
          obtain ⟨lf, hr, hcf, hof, hll, hi⟩ := ih _ _ _ _ hnf hc ho hinv
          refine ⟨lf, ?_, hcf, hof, hll, ?_⟩
          · simp only [run, hstep]
            exact hr
          · simpa [emittedAdmitted, emitOf] using hi
        | cons m rest2 =>
          have hstep : step l Action.dispatch =
              some (processLogMessage { l with logChannel := rest2 } m) := by
            simp only [step, hch]
          obtain rfl := Option.some_inj.mp (hstep.symm.trans hs)
          have hinv1 : Inv (processLogMessage { l with logChannel := rest2 } m) eI eD eE := by
            have hd : InvD { l with logChannel := rest2 } (m :: rest2) eI eD eE := by
              rw [invD_logChannel_irrel]
              have h0 := hinv
              unfold Inv at h0
              rwa [hch] at h0
            have h1 := invD_processLogMessage _ m rest2 eI eD eE hd
            unfold Inv
            simpa using h1
          obtain ⟨lf, hr, hcf, hof, hll, hi⟩ :=
            ih _ _ _ _ hnf (by simpa using hc) (by simpa using ho) hinv1
          refine ⟨lf, ?_, hcf, hof, by simpa using hll, ?_⟩
          · simp only [run, hstep]
            exact hr
          · simpa [emittedAdmitted, emitOf] using hi
      | tick =>
        have hstep : step l Action.tick = some (tick l) := rfl
        obtain rfl := Option.some_inj.mp (hstep.symm.trans hs)
        obtain ⟨lf, hr, hcf, hof, hll, hi⟩ :=
          ih _ _ _ _ hnf (by simpa using hc) (by simpa using ho) (inv_tick l _ _ _ hinv)
        refine ⟨lf, ?_, hcf, hof, by simpa using hll, ?_⟩
        · simp only [run, hstep]
          exact hr
        · simpa [emittedAdmitted, emitOf] using hi


/-! ### Preservation of lifecycle fields through drain and close -/

theorem foldl_process_onceDone (ms : List LogMsg) (l : LoggerState) :
    (ms.foldl processLogMessage l).onceDone = l.onceDone := by
  induction ms generalizing l with
  | nil => rfl
  | cons m rest ih => simp [List.foldl_cons, ih]

theorem foldl_process_channelClosed (ms : List LogMsg) (l : LoggerState) :
    (ms.foldl processLogMessage l).channelClosed = l.channelClosed := by
  induction ms generalizing l with
  | nil => rfl
  | cons m rest ih => simp [List.foldl_cons, ih]

theorem foldl_process_log_level (ms : List LogMsg) (l : LoggerState) :
    (ms.foldl processLogMessage l).log_level = l.log_level := by
  induction ms generalizing l with
  | nil => rfl
  | cons m rest ih => simp [List.foldl_cons, ih]

@[simp]
theorem processLogMessages_onceDone (l : LoggerState) :
    (processLogMessages l).onceDone = l.onceDone := by
  unfold processLogMessages
  rw [foldl_process_onceDone]

@[simp]
theorem processLogMessages_channelClosed (l : LoggerState) :
    (processLogMessages l).channelClosed = l.channelClosed := by
  unfold processLogMessages
  rw [foldl_process_channelClosed]

@[simp]
theorem processLogMessages_log_level (l : LoggerState) :
    (processLogMessages l).log_level = l.log_level := by
  unfold processLogMessages
  rw [foldl_process_log_level]

theorem close_onceDone (l : LoggerState) : (Close l).onceDone = true := by
  unfold Close
  split
  · assumption
  · simp

theorem close_channelClosed (l : LoggerState) (ho : l.onceDone = false) :
    (Close l).channelClosed = true := by
  unfold Close
  rw [ho]
  simp

theorem close_log_level (l : LoggerState) : (Close l).log_level = l.log_level := by
  unfold Close
  split
  · rfl
  · simp

theorem close_close (l : LoggerState) : Close (Close l) = Close l := by
  have h := close_onceDone l
  generalize Close l = x at h ⊢
  unfold Close
  rw [if_pos h]

/-! ### Single-step effect of the dispatcher body per level -/

theorem processLogMessage_same_flush (l : LoggerState) (m : LogMsg) (lvl : Level)
    (hm : m.level = lvl) (h : (bufOf l lvl).length + 1 ≥ l.bufferSize) :
    bufOf (processLogMessage l m) lvl = [] ∧
    sinkOf (processLogMessage l m) lvl =
      sinkOf l lvl ++ (bufOf l lvl ++ [m]).map (renderLine lvl) := by
  subst hm
  cases hml : m.level <;>
    · simp only [processLogMessage, hml, bufOf, sinkOf] at h ⊢
      rw [if_pos (by simpa using h)]
      simp

theorem processLogMessage_same_noflush (l : LoggerState) (m : LogMsg) (lvl : Level)
    (hm : m.level = lvl) (h : ¬ (bufOf l lvl).length + 1 ≥ l.bufferSize) :
    bufOf (processLogMessage l m) lvl = bufOf l lvl ++ [m] ∧
    sinkOf (processLogMessage l m) lvl = sinkOf l lvl := by
  subst hm
  cases hml : m.level <;>
    · simp only [processLogMessage, hml, bufOf, sinkOf] at h ⊢
      rw [if_neg (by simpa using h)]
      simp

theorem processLogMessage_other (l : LoggerState) (m : LogMsg) (lvl2 : Level)
    (hm : m.level ≠ lvl2) :
    bufOf (processLogMessage l m) lvl2 = bufOf l lvl2 ∧
    sinkOf (processLogMessage l m) lvl2 = sinkOf l lvl2 := by
  cases hml : m.level <;> rw [hml] at hm <;> cases lvl2 <;>
    first
    | exact absurd rfl hm
    | · simp only [processLogMessage, hml, bufOf, sinkOf]
        split <;> simp [bufOf, sinkOf]

/-- Feeding the dispatcher a non-empty run of same-level messages that brings
the buffer exactly to capacity flushes that buffer once, with the whole batch
in order, and leaves the other levels untouched. -/
theorem process_fill (lvl : Level) (ms : List LogMsg) :
    ∀ (l : LoggerState), ms ≠ [] →
      (∀ m ∈ ms, m.level = lvl) →
      (bufOf l lvl).length + ms.length = l.bufferSize →
      bufOf (ms.foldl processLogMessage l) lvl = [] ∧
      sinkOf (ms.foldl processLogMessage l) lvl =
        sinkOf l lvl ++ (bufOf l lvl ++ ms).map (renderLine lvl) ∧
      (∀ lvl2, lvl2 ≠ lvl → bufOf (ms.foldl processLogMessage l) lvl2 = bufOf l lvl2 ∧
        sinkOf (ms.foldl processLogMessage l) lvl2 = sinkOf l lvl2) := by
  induction ms with
  | nil => intro l hne _ _; exact absurd rfl hne
  | cons m rest ih =>
    intro l _ hlvl hlen
    have hm : m.level = lvl := hlvl m (List.mem_cons_self m rest)
    cases rest with
    | nil =>
      have hfl : (bufOf l lvl).length + 1 ≥ l.bufferSize := by
        simp at hlen
        omega
      obtain ⟨hb, hsk⟩ := processLogMessage_same_flush l m lvl hm hfl
      refine ⟨by simpa using hb, by simpa using hsk, ?_⟩
      intro lvl2 hne2
      have := processLogMessage_other l m lvl2 (by rw [hm]; exact fun hh => hne2 hh.symm)
      exact ⟨by simpa using this.1, by simpa using this.2⟩
    | cons m2 rest2 =>
      have hnoflush : ¬ (bufOf l lvl).length + 1 ≥ l.bufferSize := by
        simp at hlen
        omega
      obtain ⟨hb, hsk⟩ := processLogMessage_same_noflush l m lvl hm hnoflush
      have hih := ih (processLogMessage l m) (by simp)
        (fun x hx => hlvl x (List.mem_cons_of_mem m hx))
        (by
          rw [hb, processLogMessage_bufferSize]
          simp at hlen ⊢
          omega)
      obtain ⟨ihb, ihs, iho⟩ := hih
      refine ⟨by simpa using ihb, ?_, ?_⟩
      · rw [List.foldl_cons, ihs, hsk, hb]
        simp [List.append_assoc]
      · intro lvl2 hne2
        have hother := processLogMessage_other l m lvl2 (by rw [hm]; exact fun hh => hne2 hh.symm)
        obtain ⟨ob, os⟩ := iho lvl2 hne2
        constructor
        · rw [List.foldl_cons, ob, hother.1]
        · rw [List.foldl_cons, os, hother.2]

/-! ### Lemmas about the rendered-line shape -/

theorem intercalate_pair (sep a b : String) : String.intercalate sep [a, b] = a ++ sep ++ b := rfl

theorem dropWhile_append_last (p : Char → Bool) (xs : List Char) (y : Char) (hy : p y = true) :
    List.dropWhile p (xs ++ [y]) =
      if List.dropWhile p xs = [] then [] else List.dropWhile p xs ++ [y] := by
  induction xs with
  | nil => simp [List.dropWhile, hy]
  | cons x xs ih =>
    by_cases hx : p x = true
    · simpa [List.dropWhile, hx] using ih
    · simp [List.dropWhile, hx]

theorem trimSpace_append_newline (s : String) : trimSpace (s ++ "\n") = trimSpace s := by
  unfold trimSpace
  have hd : (s ++ "\n").data = s.data ++ ['\n'] := by
    simp [String.data_append]
  rw [hd, dropWhile_append_last isSpaceChar s.data '\n' (by decide)]
  by_cases h : List.dropWhile isSpaceChar s.data = []
  · simp [h]
  · rw [if_neg h]
    have hnl : isSpaceChar '\n' = true := by decide
    simp [List.dropWhile, hnl]

/-- The rendered-line format as the specification §6/§4.3 words it: the
timestamp, a space, and the space-joined payload trimmed of trailing
whitespace — with no level prefix.  This is the specification-side definition
for the refinement comparison, not a translation of the source. -/
def trimTrailingWhitespace (s : String) : String :=
  String.mk ((s.data.reverse.dropWhile isSpaceChar).reverse)

/-- Specification-side rendered line: `<timestamp> <space-joined payload>`. -/
def specRenderedLine (m : LogMsg) : String :=
  formatTimestamp m.timestamp ++ " " ++ trimTrailingWhitespace (String.intercalate " " m.msg)

/-! ### The claims -/

/-- C1: for every trace of emit calls at admitted levels interleaved with
dispatcher and ticker steps, under non-overload conditions (the intake
channel never full), after `Close` returns each sink contains exactly the
renderings of the admitted entries of its level, in emission order — every
admitted entry delivered exactly once, none duplicated, none lost. -/
theorem shutdown_delivers_each_admitted_entry_exactly_once
    (bufferSize flushInterval : Nat) (log_level : String) (acts : List Action)
    (h : neverFull (mkLogger bufferSize flushInterval log_level) acts = true) :
    ∃ lf, run (mkLogger bufferSize flushInterval log_level) acts = some lf ∧
      (Close lf).sinkInfo = (emittedAdmitted log_level .info acts).map (renderLine .info) ∧
      (Close lf).sinkDebug = (emittedAdmitted log_level .debug acts).map (renderLine .debug) ∧
      (Close lf).sinkError = (emittedAdmitted log_level .error acts).map (renderLine .error) := by
  have hinv0 : Inv (mkLogger bufferSize flushInterval log_level) [] [] [] := by
    refine ⟨?_, ?_, ?_⟩ <;> simp [mkLogger]
  obtain ⟨lf, hr, _, hof, hll, hi⟩ :=
    run_inv acts (mkLogger bufferSize flushInterval log_level) [] [] [] h rfl rfl hinv0
  obtain ⟨hsi, hsd, hse⟩ := close_sinks lf _ _ _ hi hof
  exact ⟨lf, hr, by simpa using hsi, by simpa using hsd, by simpa using hse⟩

/-- Witness for C1 at a concrete trace: capacity 2, minimum level DEBUG, one
entry of each level, one dispatcher step, one tick, then shutdown. -/
theorem shutdown_delivers_each_admitted_entry_exactly_once_witness :
    ∃ lf, run (mkLogger 2 10 "DEBUG")
        [Action.debug ["a"] ⟨2024, 1, 2, 3, 4, 5, 6⟩,
         Action.info ["b"] ⟨2024, 1, 2, 3, 4, 5, 7⟩,
         Action.error ["c"] ⟨2024, 1, 2, 3, 4, 5, 8⟩,
         Action.dispatch, Action.tick] = some lf ∧
      (Close lf).sinkInfo =
        (emittedAdmitted "DEBUG" .info
          [Action.debug ["a"] ⟨2024, 1, 2, 3, 4, 5, 6⟩,
           Action.info ["b"] ⟨2024, 1, 2, 3, 4, 5, 7⟩,
           Action.error ["c"] ⟨2024, 1, 2, 3, 4, 5, 8⟩,
           Action.dispatch, Action.tick]).map (renderLine .info) ∧
      (Close lf).sinkDebug =
        (emittedAdmitted "DEBUG" .debug
          [Action.debug ["a"] ⟨2024, 1, 2, 3, 4, 5, 6⟩,
           Action.info ["b"] ⟨2024, 1, 2, 3, 4, 5, 7⟩,
           Action.error ["c"] ⟨2024, 1, 2, 3, 4, 5, 8⟩,
           Action.dispatch, Action.tick]).map (renderLine .debug) ∧
      (Close lf).sinkError =
        (emittedAdmitted "DEBUG" .error
          [Action.debug ["a"] ⟨2024, 1, 2, 3, 4, 5, 6⟩,
           Action.info ["b"] ⟨2024, 1, 2, 3, 4, 5, 7⟩,
           Action.error ["c"] ⟨2024, 1, 2, 3, 4, 5, 8⟩,
           Action.dispatch, Action.tick]).map (renderLine .error) :=
  shutdown_delivers_each_admitted_entry_exactly_once 2 10 "DEBUG"
    [Action.debug ["a"] ⟨2024, 1, 2, 3, 4, 5, 6⟩,
     Action.info ["b"] ⟨2024, 1, 2, 3, 4, 5, 7⟩,
     Action.error ["c"] ⟨2024, 1, 2, 3, 4, 5, 8⟩,
     Action.dispatch, Action.tick] (by decide)

/-- C2: `Close` is idempotent with exactly-once semantics: any number of
invocations beyond the first leave the state exactly as one invocation does
(the close-drain-flush body, guarded by `sync.Once`, runs exactly once), and
after any invocation the once-guard is spent. -/
theorem close_idempotent_single_execution (l : LoggerState) (n : Nat) :
    Close^[n + 1] l = Close l ∧ (Close l).onceDone = true := by
  refine ⟨?_, close_onceDone l⟩
  induction n with
  | zero => simp
  | succ k ih => rw [Function.iterate_succ_apply', ih, close_close]

/-- C3: level gating — `Debug` is a complete no-op unless the configured
minimum is DEBUG, `Info` is a complete no-op unless it is INFO or DEBUG, and
when admitted (with the pipeline open) each emit produces output, either
enqueued into the channel or as a fallback line in the sink; `Error` always
produces output regardless of the configured minimum. -/
theorem emit_level_gating (l : LoggerState) (v : List String) (ts : DateTime)
    (hc : l.channelClosed = false) :
    (¬(l.log_level = "INFO" ∨ l.log_level = "DEBUG") → Info l v ts = some l) ∧
    (l.log_level ≠ "DEBUG" → Debug l v ts = some l) ∧
    ((l.log_level = "INFO" ∨ l.log_level = "DEBUG") →
      ∃ l1, Info l v ts = some l1 ∧
        (l1.logChannel = l.logChannel ++ [⟨.info, ts, v⟩] ∨
         l1.sinkInfo = l.sinkInfo ++ [infoFallbackLine v])) ∧
    (l.log_level = "DEBUG" →
      ∃ l1, Debug l v ts = some l1 ∧
        (l1.logChannel = l.logChannel ++ [⟨.debug, ts, v⟩] ∨
         l1.sinkDebug = l.sinkDebug ++ [debugFallbackLine v])) ∧
    (∃ l1, Error l v ts = some l1 ∧
      (l1.logChannel = l.logChannel ++ [⟨.error, ts, v⟩] ∨
       l1.sinkError = l.sinkError ++ [errorFallbackLine v])) := by
  refine ⟨?_, ?_, ?_, ?_, ?_⟩
  · intro h
    simp [Info, h]
  · intro h
    simp [Debug, h]
  · intro h
    unfold Info trySend
    rw [if_pos h, if_neg (by simp [hc])]
    by_cases hlen : l.logChannel.length < chanCap
    · rw [if_pos hlen]
      exact ⟨_, rfl, Or.inl rfl⟩
    · rw [if_neg hlen]
      exact ⟨_, rfl, Or.inr rfl⟩
  · intro h
    unfold Debug trySend
    rw [if_pos h, if_neg (by simp [hc])]
    by_cases hlen : l.logChannel.length < chanCap
    · rw [if_pos hlen]
      exact ⟨_, rfl, Or.inl rfl⟩
    · rw [if_neg hlen]
      exact ⟨_, rfl, Or.inr rfl⟩
  · unfold Error trySend
    rw [if_neg (by simp [hc])]
    by_cases hlen : l.logChannel.length < chanCap
    · rw [if_pos hlen]
      exact ⟨_, rfl, Or.inl rfl⟩
    · rw [if_neg hlen]
      exact ⟨_, rfl, Or.inr rfl⟩

/-- Witness for C3 on a freshly constructed pipeline with minimum level DEBUG. -/
theorem emit_level_gating_witness :
    (¬((mkLogger 2 10 "DEBUG").log_level = "INFO" ∨ (mkLogger 2 10 "DEBUG").log_level = "DEBUG") →
      Info (mkLogger 2 10 "DEBUG") ["x"] ⟨2024, 1, 2, 3, 4, 5, 6⟩ = some (mkLogger 2 10 "DEBUG")) ∧
    ((mkLogger 2 10 "DEBUG").log_level ≠ "DEBUG" →
      Debug (mkLogger 2 10 "DEBUG") ["x"] ⟨2024, 1, 2, 3, 4, 5, 6⟩ = some (mkLogger 2 10 "DEBUG")) ∧
    (((mkLogger 2 10 "DEBUG").log_level = "INFO" ∨ (mkLogger 2 10 "DEBUG").log_level = "DEBUG") →
      ∃ l1, Info (mkLogger 2 10 "DEBUG") ["x"] ⟨2024, 1, 2, 3, 4, 5, 6⟩ = some l1 ∧
        (l1.logChannel = (mkLogger 2 10 "DEBUG").logChannel ++ [⟨.info, ⟨2024, 1, 2, 3, 4, 5, 6⟩, ["x"]⟩] ∨
         l1.sinkInfo = (mkLogger 2 10 "DEBUG").sinkInfo ++ [infoFallbackLine ["x"]])) ∧
    ((mkLogger 2 10 "DEBUG").log_level = "DEBUG" →
      ∃ l1, Debug (mkLogger 2 10 "DEBUG") ["x"] ⟨2024, 1, 2, 3, 4, 5, 6⟩ = some l1 ∧
        (l1.logChannel = (mkLogger 2 10 "DEBUG").logChannel ++ [⟨.debug, ⟨2024, 1, 2, 3, 4, 5, 6⟩, ["x"]⟩] ∨
         l1.sinkDebug = (mkLogger 2 10 "DEBUG").sinkDebug ++ [debugFallbackLine ["x"]])) ∧
    (∃ l1, Error (mkLogger 2 10 "DEBUG") ["x"] ⟨2024, 1, 2, 3, 4, 5, 6⟩ = some l1 ∧
      (l1.logChannel = (mkLogger 2 10 "DEBUG").logChannel ++ [⟨.error, ⟨2024, 1, 2, 3, 4, 5, 6⟩, ["x"]⟩] ∨
       l1.sinkError = (mkLogger 2 10 "DEBUG").sinkError ++ [errorFallbackLine ["x"]])) :=
  emit_level_gating (mkLogger 2 10 "DEBUG") ["x"] ⟨2024, 1, 2, 3, 4, 5, 6⟩ rfl

/-- C4: backpressure — with the pipeline open and the intake channel full,
every admitted emit neither blocks nor drops: it synchronously appends a
prefixed fallback line to its level's sink on the caller's thread; and no
emit operation (full channel or not) returns an error or panics. -/
theorem emit_backpressure_fallback (l : LoggerState) (v : List String) (ts : DateTime)
    (hc : l.channelClosed = false) (hfull : ¬ l.logChannel.length < chanCap) :
    ((l.log_level = "INFO" ∨ l.log_level = "DEBUG") →
      Info l v ts = some { l with sinkInfo := l.sinkInfo ++ [infoFallbackLine v] }) ∧
    (l.log_level = "DEBUG" →
      Debug l v ts = some { l with sinkDebug := l.sinkDebug ++ [debugFallbackLine v] }) ∧
    Error l v ts = some { l with sinkError := l.sinkError ++ [errorFallbackLine v] } ∧
    (Info l v ts).isSome = true ∧ (Debug l v ts).isSome = true ∧
    (Error l v ts).isSome = true := by
  have herr : Error l v ts = some { l with sinkError := l.sinkError ++ [errorFallbackLine v] } := by
    unfold Error trySend
    rw [if_neg (by simp [hc]), if_neg hfull]
  refine ⟨?_, ?_, herr, ?_, ?_, by simp [herr]⟩
  · intro h
    unfold Info trySend
    rw [if_pos h, if_neg (by simp [hc]), if_neg hfull]
  · intro h
    unfold Debug trySend
    rw [if_pos h, if_neg (by simp [hc]), if_neg hfull]
  · unfold Info trySend
    split <;> simp [hc, hfull]
  · unfold Debug trySend
    split <;> simp [hc, hfull]

/-- Witness for C4: a pipeline whose channel holds 5000 queued messages. -/
theorem emit_backpressure_fallback_witness :
    (({ mkLogger 2 10 "DEBUG" with
        logChannel := List.replicate 5000 ⟨.error, ⟨2024, 1, 2, 3, 4, 5, 6⟩, ["q"]⟩ } :
          LoggerState).log_level = "INFO" ∨
      ({ mkLogger 2 10 "DEBUG" with
        logChannel := List.replicate 5000 ⟨.error, ⟨2024, 1, 2, 3, 4, 5, 6⟩, ["q"]⟩ } :
          LoggerState).log_level = "DEBUG" →
      Info { mkLogger 2 10 "DEBUG" with
          logChannel := List.replicate 5000 ⟨.error, ⟨2024, 1, 2, 3, 4, 5, 6⟩, ["q"]⟩ }
        ["x"] ⟨2024, 1, 2, 3, 4, 5, 7⟩ =
        some { { mkLogger 2 10 "DEBUG" with
            logChannel := List.replicate 5000 ⟨.error, ⟨2024, 1, 2, 3, 4, 5, 6⟩, ["q"]⟩ } with
          sinkInfo := ({ mkLogger 2 10 "DEBUG" with
            logChannel := List.replicate 5000 ⟨.error, ⟨2024, 1, 2, 3, 4, 5, 6⟩, ["q"]⟩ } :
              LoggerState).sinkInfo ++ [infoFallbackLine ["x"]] }) ∧
    (({ mkLogger 2 10 "DEBUG" with
        logChannel := List.replicate 5000 ⟨.error, ⟨2024, 1, 2, 3, 4, 5, 6⟩, ["q"]⟩ } :
          LoggerState).log_level = "DEBUG" →
      Debug { mkLogger 2 10 "DEBUG" with
          logChannel := List.replicate 5000 ⟨.error, ⟨2024, 1, 2, 3, 4, 5, 6⟩, ["q"]⟩ }
        ["x"] ⟨2024, 1, 2, 3, 4, 5, 7⟩ =
        some { { mkLogger 2 10 "DEBUG" with
            logChannel := List.replicate 5000 ⟨.error, ⟨2024, 1, 2, 3, 4, 5, 6⟩, ["q"]⟩ } with
          sinkDebug := ({ mkLogger 2 10 "DEBUG" with
            logChannel := List.replicate 5000 ⟨.error, ⟨2024, 1, 2, 3, 4, 5, 6⟩, ["q"]⟩ } :
              LoggerState).sinkDebug ++ [debugFallbackLine ["x"]] }) ∧
    Error { mkLogger 2 10 "DEBUG" with
        logChannel := List.replicate 5000 ⟨.error, ⟨2024, 1, 2, 3, 4, 5, 6⟩, ["q"]⟩ }
      ["x"] ⟨2024, 1, 2, 3, 4, 5, 7⟩ =
      some { { mkLogger 2 10 "DEBUG" with
          logChannel := List.replicate 5000 ⟨.error, ⟨2024, 1, 2, 3, 4, 5, 6⟩, ["q"]⟩ } with
        sinkError := ({ mkLogger 2 10 "DEBUG" with
          logChannel := List.replicate 5000 ⟨.error, ⟨2024, 1, 2, 3, 4, 5, 6⟩, ["q"]⟩ } :
            LoggerState).sinkError ++ [errorFallbackLine ["x"]] } ∧
    (Info { mkLogger 2 10 "DEBUG" with
        logChannel := List.replicate 5000 ⟨.error, ⟨2024, 1, 2, 3, 4, 5, 6⟩, ["q"]⟩ }
      ["x"] ⟨2024, 1, 2, 3, 4, 5, 7⟩).isSome = true ∧
    (Debug { mkLogger 2 10 "DEBUG" with
        logChannel := List.replicate 5000 ⟨.error, ⟨2024, 1, 2, 3, 4, 5, 6⟩, ["q"]⟩ }
      ["x"] ⟨2024, 1, 2, 3, 4, 5, 7⟩).isSome = true ∧
    (Error { mkLogger 2 10 "DEBUG" with
        logChannel := List.replicate 5000 ⟨.error, ⟨2024, 1, 2, 3, 4, 5, 6⟩, ["q"]⟩ }
      ["x"] ⟨2024, 1, 2, 3, 4, 5, 7⟩).isSome = true :=
  emit_backpressure_fallback _ ["x"] ⟨2024, 1, 2, 3, 4, 5, 7⟩ rfl
    (by rw [List.length_replicate]; decide)

/-- C5: flush atomicity and FIFO — `flushBuffer` swaps out the entire buffer
atomically (the buffer is empty immediately after the swap) and writes the
swapped-out entries to the sink in exactly their append order. -/
theorem flushBuffer_atomic_fifo (buffer : List LogMsg) (sink : List String) (lvl : Level) :
    flushBuffer buffer sink lvl = ([], sink ++ buffer.map (renderLine lvl)) :=
  flushBuffer_spec buffer sink lvl

/-- C6: size-based flush trigger — dispatching exactly `bufferSize` messages
of one level into an empty buffer, with no intervening tick, flushes that
buffer exactly once with exactly those entries in emission order, leaves the
buffer empty, and leaves the buffers and sinks of the other levels untouched
(the threshold comparison happens on the buffer as just appended, i.e. inside
the critical section). -/
theorem size_trigger_flushes_full_batch (l : LoggerState) (ms : List LogMsg) (lvl : Level)
    (hpos : 0 < l.bufferSize) (hlvl : ∀ m ∈ ms, m.level = lvl)
    (hbuf : bufOf l lvl = []) (hlen : ms.length = l.bufferSize) :
    bufOf (ms.foldl processLogMessage l) lvl = [] ∧
    sinkOf (ms.foldl processLogMessage l) lvl = sinkOf l lvl ++ ms.map (renderLine lvl) ∧
    ∀ lvl2, lvl2 ≠ lvl → bufOf (ms.foldl processLogMessage l) lvl2 = bufOf l lvl2 ∧
      sinkOf (ms.foldl processLogMessage l) lvl2 = sinkOf l lvl2 := by
  have hne : ms ≠ [] := by
    intro hnil
    rw [hnil] at hlen
    simp at hlen
    omega
  have h := process_fill lvl ms l hne hlvl (by rw [hbuf]; simpa using hlen)
  rw [hbuf] at h
  simpa using h

/-- Witness for C6: capacity 2, two INFO messages, fresh pipeline. -/
theorem size_trigger_flushes_full_batch_witness :
    bufOf ([(⟨.info, ⟨2024, 1, 2, 3, 4, 5, 6⟩, ["a"]⟩ : LogMsg),
        ⟨.info, ⟨2024, 1, 2, 3, 4, 5, 7⟩, ["b"]⟩].foldl processLogMessage
          (mkLogger 2 10 "DEBUG")) .info = [] ∧
    sinkOf ([(⟨.info, ⟨2024, 1, 2, 3, 4, 5, 6⟩, ["a"]⟩ : LogMsg),
        ⟨.info, ⟨2024, 1, 2, 3, 4, 5, 7⟩, ["b"]⟩].foldl processLogMessage
          (mkLogger 2 10 "DEBUG")) .info =
      sinkOf (mkLogger 2 10 "DEBUG") .info ++
        [(⟨.info, ⟨2024, 1, 2, 3, 4, 5, 6⟩, ["a"]⟩ : LogMsg),
         ⟨.info, ⟨2024, 1, 2, 3, 4, 5, 7⟩, ["b"]⟩].map (renderLine .info) ∧
    ∀ lvl2, lvl2 ≠ Level.info →
      bufOf ([(⟨.info, ⟨2024, 1, 2, 3, 4, 5, 6⟩, ["a"]⟩ : LogMsg),
          ⟨.info, ⟨2024, 1, 2, 3, 4, 5, 7⟩, ["b"]⟩].foldl processLogMessage
            (mkLogger 2 10 "DEBUG")) lvl2 = bufOf (mkLogger 2 10 "DEBUG") lvl2 ∧
      sinkOf ([(⟨.info, ⟨2024, 1, 2, 3, 4, 5, 6⟩, ["a"]⟩ : LogMsg),
          ⟨.info, ⟨2024, 1, 2, 3, 4, 5, 7⟩, ["b"]⟩].foldl processLogMessage
            (mkLogger 2 10 "DEBUG")) lvl2 = sinkOf (mkLogger 2 10 "DEBUG") lvl2 :=
  size_trigger_flushes_full_batch (mkLogger 2 10 "DEBUG")
    [⟨.info, ⟨2024, 1, 2, 3, 4, 5, 6⟩, ["a"]⟩, ⟨.info, ⟨2024, 1, 2, 3, 4, 5, 7⟩, ["b"]⟩]
    .info (by decide) (by decide) rfl rfl

/-- C7: post-shutdown emits are unsafe — once `Close` has run on a live
pipeline, an `Error` call (never gated) and any admitted `Info`/`Debug` call
attempt a send on the closed intake channel and panic (`none`); they are
neither no-ops nor diverted to the channel-full fallback. -/
theorem emit_after_close_panics (l : LoggerState) (v : List String) (ts : DateTime)
    (ho : l.onceDone = false) :
    Error (Close l) v ts = none ∧
    ((Close l).log_level = "INFO" ∨ (Close l).log_level = "DEBUG" →
      Info (Close l) v ts = none) ∧
    ((Close l).log_level = "DEBUG" → Debug (Close l) v ts = none) := by
  have hc := close_channelClosed l ho
  refine ⟨?_, ?_, ?_⟩
  · simp [Error, trySend, hc]
  · intro h
    simp [Info, trySend, hc, h]
  · intro h
    simp [Debug, trySend, hc, h]

/-- Witness for C7 on a freshly constructed, then closed, pipeline. -/
theorem emit_after_close_panics_witness :
    Error (Close (mkLogger 2 10 "DEBUG")) ["x"] ⟨2024, 1, 2, 3, 4, 5, 6⟩ = none ∧
    ((Close (mkLogger 2 10 "DEBUG")).log_level = "INFO" ∨
        (Close (mkLogger 2 10 "DEBUG")).log_level = "DEBUG" →
      Info (Close (mkLogger 2 10 "DEBUG")) ["x"] ⟨2024, 1, 2, 3, 4, 5, 6⟩ = none) ∧
    ((Close (mkLogger 2 10 "DEBUG")).log_level = "DEBUG" →
      Debug (Close (mkLogger 2 10 "DEBUG")) ["x"] ⟨2024, 1, 2, 3, 4, 5, 6⟩ = none) :=
  emit_after_close_panics (mkLogger 2 10 "DEBUG") ["x"] ⟨2024, 1, 2, 3, 4, 5, 6⟩ rfl

/-- C8: evaluation of the code at the failing scenario — after `Close`
completes on a fresh pipeline, the periodic-flush goroutine is still alive
(nothing in `Close` or anywhere else stops the ticker; the `for range
ticker.C` loop never exits and its deferred `ticker.Stop()` is unreachable),
and its next tick still executes the full flush sequence rather than being
stopped.  This contradicts the claim that the ticker is stopped on shutdown. -/
theorem ticker_survives_close :
    (Close (mkLogger 2 10 "DEBUG")).tickerActive = true ∧
    tick (Close (mkLogger 2 10 "DEBUG")) = flushAllBuffers (Close (mkLogger 2 10 "DEBUG")) := by
  constructor
  · rfl
  · rfl

/-- C9 counterexample: the line actually written by a buffered flush carries
the `log.Logger` prefix (`"INFO: "` etc.) installed in `NewLogger` ahead of
the timestamp, and `strings.TrimSpace` trims leading as well as trailing
whitespace — so the spec's claimed form `<timestamp> <space-joined payload
trimmed of trailing whitespace>` does not match the rendered line. -/
theorem rendered_line_spec_counterexample :
    renderLine .info ⟨.info, ⟨2024, 1, 2, 3, 4, 5, 6⟩, ["  hello"]⟩ ≠
      specRenderedLine ⟨.info, ⟨2024, 1, 2, 3, 4, 5, 6⟩, ["  hello"]⟩ := by
  decide

/-- C9 (amended): every entry written via a buffered flush is rendered as
exactly one line of the form `<level tag><timestamp> <payload>`: the level's
logger prefix, then the timestamp `YYYY-MM-DD HH:MM:SS.mmm` formatted from
the instant stored in the entry (captured at the emit call), a space, and the
space-joined payload trimmed of leading and trailing whitespace. -/
theorem rendered_line_format_with_level_tag (lvl : Level) (m : LogMsg) :
    renderLine lvl m =
      levelTag lvl ++ (formatTimestamp m.timestamp ++ " " ++
        trimSpace (String.intercalate " " m.msg)) := by
  unfold renderLine logPrintln sprintln
  rw [intercalate_pair, trimSpace_append_newline]

/-- C10: construction error handling — an inaccessible log directory is fatal
(`log.Fatalf`: the process exits, no pipeline is created); with an accessible
directory a non-positive buffer capacity makes `NewLogger` return an error
and no pipeline; any valid configuration returns a live pipeline handle and
no error. -/
theorem newLogger_construction_errors (dirAccessible : Bool) (bufferSize : Int)
    (flushInterval : Nat) (log_level : String) :
    (dirAccessible = false →
      NewLogger dirAccessible bufferSize flushInterval log_level = .fatalExit) ∧
    (dirAccessible = true → bufferSize ≤ 0 →
      NewLogger dirAccessible bufferSize flushInterval log_level =
        .err "bufferSize必须大于0") ∧
    (dirAccessible = true → 0 < bufferSize →
      NewLogger dirAccessible bufferSize flushInterval log_level =
        .ok (mkLogger bufferSize.toNat flushInterval log_level)) := by
  refine ⟨?_, ?_, ?_⟩
  · intro h
    simp [NewLogger, h]
  · intro h1 h2
    simp [NewLogger, h1, h2]
  · intro h1 h2
    unfold NewLogger
    rw [h1]
    simp only [Bool.not_true, Bool.false_eq_true, if_false]
    rw [if_neg (by omega)]

/-- Witness for C10 at three concrete configurations. -/
theorem newLogger_construction_errors_witness :
    NewLogger false 5 10 "INFO" = .fatalExit ∧
    NewLogger true 0 10 "INFO" = .err "bufferSize必须大于0" ∧
    NewLogger true 3 10 "INFO" = .ok (mkLogger (3 : Int).toNat 10 "INFO") :=
  ⟨(newLogger_construction_errors false 5 10 "INFO").1 rfl,
   (newLogger_construction_errors true 0 10 "INFO").2.1 rfl (by decide),
   (newLogger_construction_errors true 3 10 "INFO").2.2 rfl (by decide)⟩

end JLogger
